import Mathlib

/-!
Shallow embedding of `jira_commits_report.py` (the `jira-commits-report`
repository).  Pure Python functions become Lean functions; the async HTTP
layer is modelled by an explicit "world" function mapping each issue key to
the outcome of its HTTP request; raised Python exceptions are modelled with
`Except.error`.  Strings are modelled as Lean `String` (lists of characters).
-/

namespace JiraReport

/-- The double-quote character `"`. -/
def dq : Char := Char.ofNat 34

/-- The apostrophe character, as a one-character string (it appears in the
git failure message built by `__call_git_log`). -/
def apos : String := String.singleton (Char.ofNat 39)

/-- Python `str.replace(old, new)` for a one-character pattern `old` (the
source only calls `.replace('"', '""')`): scan left to right, substituting
`new` for each occurrence of the character `old`. -/
def pyReplaceChar (old : Char) (new : List Char) : List Char → List Char
  | [] => []
  | c :: cs => (if c = old then new else [c]) ++ pyReplaceChar old new cs

/-- `sanitize` from the source:

    def sanitize(text):
        if text is None:
            return None
        else:
            return text.replace('"', '""')

`None` is modelled by `Option.none`. -/
def sanitize : Option String → Option String
  | none => none
  | some text => some (String.mk (pyReplaceChar dq [dq, dq] text.data))

/-- What quote-doubling does to a single character. -/
def expandQuote (c : Char) : List Char := if c = dq then [dq, dq] else [c]

/-- `quotesPaired cs` holds when every double-quote in `cs` occurs as part of
an adjacent pair `""` — i.e. there is no lone double-quote. -/
def quotesPaired : List Char → Bool
  | [] => true
  | [c] => if c = dq then false else true
  | c :: c2 :: cs =>
    if c = dq then
      if c2 = dq then quotesPaired cs else false
    else quotesPaired (c2 :: cs)

/-- `get_issue_url`: `'{url}/browse/{issue}'.format(...)`. -/
def getIssueUrl (jiraUrl issueKey : String) : String :=
  jiraUrl ++ "/browse/" ++ issueKey

/-- `get_api_url`: `'{url}/rest/api/2'.format(...)`. -/
def getApiUrl (jiraUrl : String) : String :=
  jiraUrl ++ "/rest/api/2"

/-!  ## Issue-key extraction (`get_issue_regex` / `get_commits_issues`)

`get_issue_regex(project)` is `'^.*(?P<issue_key>({project})-[0-9]+).*$'`,
where `project` is the `'|'`-join of the project codes, and it is applied
with `re.match`.  We embed the backtracking semantics of this concrete
pattern (for literal project codes, on the newline-free commit subjects that
`git log --pretty=oneline` yields):

* the leading greedy `.*` makes the engine try group start positions from the
  rightmost one backwards;
* at a fixed position the alternation `(P1|P2|...)` tries the codes in
  order; the first code that is followed by `-` and at least one digit
  matches, with `[0-9]+` greedily taking the maximal digit run;
* the trailing `.*$` always succeeds on what remains.
-/

/-- Match of one alternative `p` anchored at the head of `cs`: requires
`p ++ "-" ++ <at least one digit>` as a prefix; the captured key takes the
maximal digit run. -/
def projMatchAt (p : String) (cs : List Char) : Option (List Char) :=
  if p.data.isPrefixOf cs then
    match cs.drop p.data.length with
    | '-' :: r2 =>
      let digits := r2.takeWhile Char.isDigit
      if digits = [] then none
      else some (p.data ++ '-' :: digits)
    | _ => none
  else none

/-- The alternation `(P1|P2|...)-[0-9]+` anchored at the head of `cs`:
alternatives are tried in order. -/
def altMatchAt : List String → List Char → Option (List Char)
  | [], _ => none
  | p :: ps, cs =>
    match projMatchAt p cs with
    | some k => some k
    | none => altMatchAt ps cs

/-- The group captured by `re.match('^.*((P1|..)-[0-9]+).*$', s)`: the match
at the rightmost position where the alternation matches (the greedy leading
`.*` backtracks from the end), `none` when the whole pattern fails. -/
def matchLast (projects : List String) : List Char → Option (List Char)
  | [] => none
  | c :: cs =>
    match matchLast projects cs with
    | some k => some k
    | none => altMatchAt projects (c :: cs)

/-- A parsed `git log --pretty=oneline` line (`__call_git_log` returns
dicts with keys `commit` and `comment`). -/
structure Commit where
  commit : String
  comment : String
  deriving DecidableEq

/-- Python `set.add`, modelled on a duplicate-free list (insertion order is
one linearization of the unordered set). -/
def insertIssue (issues : List String) (k : String) : List String :=
  if k ∈ issues then issues else issues ++ [k]

/-- One iteration of `get_commits_issues`'s loop: if the comment matches
the issue regex, add the captured key to the set. -/
def extractStep (projects : List String) (issues : List String) (c : Commit) :
    List String :=
  match matchLast projects c.comment.data with
  | some k => insertIssue issues (String.mk k)
  | none => issues

/-- `get_commits_issues(project, commit_list)`: collect into a set the key
captured by the issue regex for each commit comment that matches, and return
the set as a list.  `projects` is the list of alternatives that the source
joins with `'|'` into the regex. -/
def getCommitsIssues (projects : List String) (commitList : List Commit) : List String :=
  commitList.foldl (extractStep projects) []

/-- `needle` occurs as a contiguous substring of the second list. -/
def isInfixChars (needle : List Char) : List Char → Bool
  | [] => needle.isEmpty
  | c :: cs => needle.isPrefixOf (c :: cs) || isInfixChars needle cs

/-!  ## JSON values and the per-issue fetch

`__get_issue_data` either returns the parsed JSON body (for HTTP 200) or a
dict `{'key': ..., 'error_message': 'Errors getting issue data'}`.  JSON
values are embedded as `JValue`; Python dicts from parsed JSON become
association lists. -/

inductive JValue where
  | null
  | str (s : String)
  | num (n : Int)
  | bool (b : Bool)
  | arr (xs : List JValue)
  | obj (fields : List (String × JValue))

/-- Python `d[k]` on a parsed-JSON dict, as an `Option` (keys of parsed JSON
objects are unique). -/
def JValue.get : JValue → String → Option JValue
  | .obj fields, k => (fields.find? (fun p => p.fst == k)).map (fun p => p.snd)
  | _, _ => none

/-- Python `k in v` for a string `k` and a parsed-JSON value `v`:
containment for dicts and lists, substring test for strings, `TypeError`
otherwise. -/
def pyIn (k : String) : JValue → Except String Bool
  | .obj fields => .ok (fields.any (fun p => p.fst == k))
  | .arr xs => .ok (xs.any (fun v => match v with | .str s => s == k | _ => false))
  | .str s => .ok (isInfixChars k.data s.data)
  | _ => .error "TypeError: argument is not iterable"

/-- The outcome of the HTTP GET for one issue key:
either the request raises (`aiohttp` connection error / timeout), or an HTTP
response arrives with a status and a body whose JSON parse may itself fail
(`response.json()` raising on a malformed body). -/
inductive FetchOutcome where
  | exn (msg : String)
  | resp (status : Nat) (body : Except String JValue)

/-- The generic error text used by `__get_issue_data` for non-200 statuses. -/
def errorsGettingMsg : String := "Errors getting issue data"

/-- The error dict `{'key': issue_key, 'error_message': 'Errors getting issue data'}`. -/
def errIssue (issueKey : String) : JValue :=
  .obj [("key", .str issueKey), ("error_message", .str errorsGettingMsg)]

/-- `__get_issue_data(session, issue_key, url)`, for a world `world` mapping
each key to the outcome of its request: on status 200 return
`await response.json()` (whose parse failure raises); on any other status
return the error dict.  A raised exception is `Except.error`. -/
def getIssueData (world : String → FetchOutcome) (issueKey : String) :
    Except String JValue :=
  match world issueKey with
  | .exn m => .error m
  | .resp status body =>
    if status = 200 then body
    else .ok (errIssue issueKey)

/-- `__get_all_issues_data`: launch one task per issue and
`asyncio.gather` them (default `return_exceptions=False`: results come back
in task order, and the first raised exception propagates to the caller). -/
def getAllIssuesData (world : String → FetchOutcome) (issues : List String) :
    Except String (List JValue) :=
  issues.mapM (getIssueData world)

/-- `get_issues_data`: the synchronous wrapper
(`loop.run_until_complete`) returns the value of `__get_all_issues_data`. -/
def getIssuesData (world : String → FetchOutcome) (issues : List String) :
    Except String (List JValue) :=
  getAllIssuesData world issues

/-- The `key` entry of a result dict, when it is a string. -/
def resultKey (j : JValue) : Option String :=
  match j.get "key" with
  | some (.str s) => some s
  | _ => none

/-- Does the outcome of this key's request make `__get_issue_data` raise?
(connection error / timeout, or a 200 body that fails to parse; a non-200
status does NOT raise — the body is never parsed there). -/
def outcomeRaises : FetchOutcome → Bool
  | .exn _ => true
  | .resp status (.error _) => status == 200
  | .resp _ (.ok _) => false

/-!  ## Report rendering (`main`'s output loop and `write`) -/

/-- Python `'{x}'.format(x=v)` on the value returned by `sanitize`:
`None` formats as the four-character string `None`. -/
def fmtField : Option String → String
  | none => "None"
  | some s => s

/-- Python `issue[k]`: a missing key raises `KeyError`. -/
def getField (j : JValue) (k : String) : Except String JValue :=
  match j.get k with
  | some v => .ok v
  | none => .error ("KeyError: " ++ k)

/-- `sanitize` applied to a JSON value, as `main` does: `None` and strings
are accepted, anything else has no `.replace` and raises `AttributeError`. -/
def sanitizeJ : JValue → Except String (Option String)
  | .null => .ok (sanitize none)
  | .str s => .ok (sanitize (some s))
  | _ => .error "AttributeError: no attribute replace"

/-- Python `str()` of the raw `issue['key']` as interpolated into the browse
URL.  In any render that gets as far as the URL argument, `sanitize` has
already accepted `issue['key']`, so only `null` and strings are reachable
here; the container cases are unreachable in a successful render. -/
def pyStr : JValue → String
  | .null => "None"
  | .str s => s
  | .num n => toString n
  | .bool b => if b then "True" else "False"
  | .arr _ => ""
  | .obj _ => ""

/-- A one-character string holding the double quote. -/
def q : String := String.singleton dq

/-- The body of `main`'s per-issue loop: render one row.

    if 'error_message' in issue:
        write('"{key}","Error","{error_text}"'.format(
              key=sanitize(issue['key']),
              error_text=sanitize(issue['error_message'])), ...)
    else:
        write('"{key}","{issue_type}","{summary}","{status}",'
              '"{resolution}","{resolution_date}","{url}"'.format(...), ...)

Format arguments are evaluated left to right; any raised `KeyError` /
`AttributeError` is `Except.error` (uncaught in `main`). -/
def renderIssueRow (server : String) (issue : JValue) : Except String String := do
  let isErr ← pyIn "error_message" issue
  if isErr then
    let key ← getField issue "key" >>= sanitizeJ
    let errText ← getField issue "error_message" >>= sanitizeJ
    pure (q ++ fmtField key ++ q ++ "," ++ q ++ "Error" ++ q ++ "," ++
          q ++ fmtField errText ++ q)
  else
    let key ← getField issue "key" >>= sanitizeJ
    let fields ← getField issue "fields"
    let issueType ← getField fields "issuetype" >>= (fun it => getField it "name")
      >>= sanitizeJ
    let summary ← getField fields "summary" >>= sanitizeJ
    let status ← getField fields "status" >>= (fun st => getField st "name")
      >>= sanitizeJ
    let resolutionJ ← getField fields "resolution"
    let resolution ←
      (match resolutionJ with
       | .null => sanitizeJ .null
       | r => getField r "name" >>= sanitizeJ)
    let resolutionDate ← getField fields "resolutiondate" >>= sanitizeJ
    let keyRaw ← getField issue "key"
    let url := getIssueUrl server (pyStr keyRaw)
    pure (q ++ fmtField key ++ q ++ "," ++ q ++ fmtField issueType ++ q ++ "," ++
          q ++ fmtField summary ++ q ++ "," ++ q ++ fmtField status ++ q ++ "," ++
          q ++ fmtField resolution ++ q ++ "," ++ q ++ fmtField resolutionDate ++ q ++
          "," ++ q ++ url ++ q)

/-!  ## The git side (`__call_git_log`) and the `main` pipeline -/

/-- The observable outcome of one `Popen(['git', 'log', ...])` invocation. -/
structure ProcResult where
  returncode : Int
  stdout : String
  stderr : String
  deriving DecidableEq

/-- Python `str.splitlines()` (newline-terminated final line yields no empty
trailing entry; the empty string yields no lines). -/
def pySplitlines (s : String) : List String :=
  if s = "" then []
  else if s.data.getLast? = some (Char.ofNat 10) then (s.splitOn "\n").dropLast
  else s.splitOn "\n"

/-- `re.match('^(?P<commit>[^ ]+) (?P<comment>.*)$', line)`: a nonempty run
of non-space characters, one space, then the rest of the line. -/
def parseLogLine (line : String) : Option Commit :=
  let cs := line.data
  let commitPart := cs.takeWhile (fun c => c ≠ ' ')
  match commitPart, cs.dropWhile (fun c => c ≠ ' ') with
  | [], _ => none
  | chars, _ :: comment => some ⟨String.mk chars, String.mk comment⟩
  | _, [] => none

/-- The `RuntimeError` message raised by `__call_git_log` on a non-zero exit
code (`raw_err.decode()[:-1]` drops the final character of stderr). -/
def gitFailMsg (p : ProcResult) (commandArgs : List String) : String :=
  "Cmd(" ++ apos ++ "git" ++ apos ++ ") failed due to: exit code(" ++
  toString p.returncode ++ ")\n  cmdline: " ++ " ".intercalate commandArgs ++
  "\n  stderr: " ++ String.mk p.stderr.data.dropLast

/-- The full command line built by `__call_git_log`:
`['git', 'log'] + args + ['--pretty=oneline']`. -/
def gitCmdArgs (args : List String) : List String :=
  ["git", "log"] ++ (args ++ ["--pretty=oneline"])

/-- `__call_git_log(args, repo_path)` for a process world `exec` mapping a
command line and working directory to its result: append
`--pretty=oneline`, run `git log`, raise `RuntimeError` on a non-zero exit
code, otherwise parse each line (a line not matching the log-line regex
makes `.groupdict()` raise `AttributeError` on `None`). -/
def callGitLog (exec : List String → String → ProcResult)
    (args : List String) (repoPath : String) : Except String (List Commit) :=
  let commandArgs := gitCmdArgs args
  let p := exec commandArgs repoPath
  if p.returncode ≠ 0 then
    .error (gitFailMsg p commandArgs)
  else
    match (pySplitlines p.stdout).mapM parseLogLine with
    | some commits => .ok commits
    | none => .error "AttributeError: NoneType has no attribute groupdict"

/-- `main`'s commit-gathering loop: `commits.extend(...)` per repo path
inside one `try`, so the first raised error aborts the loop. -/
def getCommitsLoop (exec : List String → String → ProcResult)
    (args : List String) : List String → Except String (List Commit)
  | [] => .ok []
  | rp :: rest => do
    let cs ← callGitLog exec args rp
    let more ← getCommitsLoop exec args rest
    pure (cs ++ more)

/-- The fixed CSV header row written by `main`. -/
def headerLine : String :=
  "\"key\",\"issue_type\",\"summary\",\"status\",\"resolution\",\"resolution_date\",\"url\""

/-- What one run observably produces: the process exit code, the report
lines written to the output sink, and the lines on the error stream. -/
structure RunOutput where
  exitCode : Nat
  outLines : List String
  errLines : List String
  deriving DecidableEq

/-- `main`'s render loop: rows are written one at a time, so an exception
mid-loop leaves the earlier lines already emitted (exit code 1 for the
uncaught exception). -/
def renderAll (server : String) : List JValue → List String → RunOutput
  | [], acc => ⟨0, acc, []⟩
  | issue :: rest, acc =>
    match renderIssueRow server issue with
    | .error e => ⟨1, acc, [e]⟩
    | .ok row => renderAll server rest (acc ++ [row])

/-- The `main` pipeline after argument parsing: gather commits over the repo
paths (a raised error is caught, printed to stderr, exit code 1, before
anything is written); extract the issue keys; write the header; fetch all
issue data (an uncaught exception here leaves only the header written);
render the rows. -/
def runReport (exec : List String → String → ProcResult) (args : List String)
    (repoPaths : List String) (world : String → FetchOutcome)
    (projects : List String) (server : String) : RunOutput :=
  match getCommitsLoop exec args repoPaths with
  | .error e => ⟨1, [], [e]⟩
  | .ok commits =>
    let issueKeys := getCommitsIssues projects commits
    match getIssuesData world issueKeys with
    | .error e => ⟨1, [headerLine], [e]⟩
    | .ok issues => renderAll server issues [headerLine]

/-!  ## Concrete test fixtures used by counterexamples and witnesses -/

/-- A world where the request for `ABC-1` raises a connection error and
every other request succeeds with a well-formed body. -/
def c1World : String → FetchOutcome := fun k =>
  if k = "ABC-1" then .exn "Connection timeout"
  else .resp 200 (.ok (.obj [("key", .str k)]))

/-- A world with one raising connection error (`ABC-1`), one malformed 200
body (`ABC-2`), and well-formed 200 responses for every other key. -/
def c2World : String → FetchOutcome := fun k =>
  if k = "ABC-1" then .exn "ConnectionError"
  else if k = "ABC-2" then .resp 200 (.error "JSONDecodeError")
  else .resp 200 (.ok (.obj [("key", .str k)]))

/-- A 200 body carrying a tracker-level soft error (`errorMessages`). -/
def c3Body : JValue := .obj [("errorMessages", .arr [.str "Issue does not exist."])]

/-- A world answering every request with status 200 and the soft-error body. -/
def c3World : String → FetchOutcome := fun _ => .resp 200 (.ok c3Body)

/-- A parsed success body whose fields are all present, with string values
`key`, `issueType`, `summary`, `status`, `resolutionDate`, and the given
JSON value as `resolution`. -/
def successIssue (key issueType summary status : String) (resolution : JValue)
    (resolutionDate : String) : JValue :=
  .obj [
    ("key", .str key),
    ("fields", .obj [
      ("issuetype", .obj [("name", .str issueType)]),
      ("summary", .str summary),
      ("status", .obj [("name", .str status)]),
      ("resolution", resolution),
      ("resolutiondate", .str resolutionDate)])]

/-- A concrete fetched issue whose `resolution` is JSON `null`. -/
def c4Issue : JValue :=
  successIssue "ABC-1" "Bug" "Fix it" "Done" .null "2020-01-01"

/-- A world used for the C1 witness: `ABC-1` gets a 404 (no exception),
`ABC-2` a well-formed 200 body echoing its key. -/
def c1WitWorld : String → FetchOutcome := fun k =>
  if k = "ABC-2" then .resp 200 (.ok (.obj [("key", .str "ABC-2")]))
  else .resp 404 (.error "Not Found")

/-- The single commit used by the C8 counterexample: its message contains
the two distinct matching keys `ABC-1` and `ABC-2`. -/
def c8Commit : Commit := ⟨"deadbeef", "ABC-1 ABC-2"⟩

/-- The process world used by the C9 witness: every invocation exits 128. -/
def c9Exec : List String → String → ProcResult :=
  fun _ _ => ⟨128, "", "fatal: bad revision\n"⟩

/-!  ## Helper lemmas -/

theorem pyReplaceChar_dq (cs : List Char) :
    pyReplaceChar dq [dq, dq] cs = cs.flatMap expandQuote := by
  induction cs with
  | nil => rfl
  | cons c cs ih => simp [pyReplaceChar, expandQuote, ih]

theorem count_flatMap_dq (cs : List Char) :
    (cs.flatMap expandQuote).count dq = 2 * cs.count dq := by
  induction cs with
  | nil => rfl
  | cons c cs ih =>
    by_cases hc : c = dq
    · subst hc
      simp [expandQuote, ih, List.count_cons]
      ring
    · simp [expandQuote, hc, ih, List.count_cons]

theorem count_flatMap_ne (c0 : Char) (hc0 : c0 ≠ dq) (cs : List Char) :
    (cs.flatMap expandQuote).count c0 = cs.count c0 := by
  induction cs with
  | nil => rfl
  | cons c cs ih =>
    by_cases hc : c = dq
    · subst hc
      simp [expandQuote, ih, List.count_cons, hc0]
    · simp [expandQuote, hc, ih, List.count_cons]

theorem quotesPaired_cons_of_ne (c : Char) (l : List Char) (hc : c ≠ dq)
    (hl : quotesPaired l = true) : quotesPaired (c :: l) = true := by
  cases l with
  | nil => simp [quotesPaired, hc]
  | cons c2 cs => simpa [quotesPaired, hc] using hl

theorem quotesPaired_pair (l : List Char) :
    quotesPaired (dq :: dq :: l) = quotesPaired l := by
  simp [quotesPaired]

theorem quotesPaired_flatMap (cs : List Char) :
    quotesPaired (cs.flatMap expandQuote) = true := by
  induction cs with
  | nil => rfl
  | cons c cs ih =>
    by_cases hc : c = dq
    · subst hc
      simpa [expandQuote, quotesPaired_pair] using ih
    · simpa [expandQuote, hc] using quotesPaired_cons_of_ne c _ hc ih

theorem altMatchAt_nil (ps : List String) : altMatchAt ps [] = none := by
  induction ps with
  | nil => rfl
  | cons p ps ih =>
    have hp : projMatchAt p [] = none := by
      simp [projMatchAt, List.drop_nil]
    simp only [altMatchAt, hp]
    exact ih

theorem matchLast_none_iff (ps : List String) (cs : List Char) :
    matchLast ps cs = none ↔ ∀ i, altMatchAt ps (cs.drop i) = none := by
  induction cs with
  | nil => simp [matchLast, List.drop_nil, altMatchAt_nil]
  | cons c cs ih =>
    constructor
    · intro h i
      rcases hm : matchLast ps cs with _ | k
      · have hself : altMatchAt ps (c :: cs) = none := by
          simp only [matchLast, hm] at h
          exact h
        cases i with
        | zero => simpa using hself
        | succ i => rw [List.drop_succ_cons]; exact (ih.mp hm) i
      · simp only [matchLast, hm] at h
        simp at h
    · intro h
      have hcs : matchLast ps cs = none := ih.mpr (fun i => by
        have h1 := h (i + 1)
        rwa [List.drop_succ_cons] at h1)
      simp only [matchLast, hcs]
      simpa using h 0

theorem matchLast_some_iff (ps : List String) (cs k : List Char) :
    matchLast ps cs = some k ↔
      ∃ i, altMatchAt ps (cs.drop i) = some k ∧
        ∀ j, i < j → altMatchAt ps (cs.drop j) = none := by
  induction cs generalizing k with
  | nil => simp [matchLast, List.drop_nil, altMatchAt_nil]
  | cons c cs ih =>
    constructor
    · intro h
      rcases hm : matchLast ps cs with _ | k0
      · simp only [matchLast, hm] at h
        refine ⟨0, by simpa using h, ?_⟩
        intro j hj
        cases j with
        | zero => omega
        | succ j => rw [List.drop_succ_cons]; exact (matchLast_none_iff ps cs).mp hm j
      · simp only [matchLast, hm] at h
        obtain rfl : k0 = k := by simpa using h
        obtain ⟨i, hi, hafter⟩ := (ih k0).mp hm
        refine ⟨i + 1, by rwa [List.drop_succ_cons], ?_⟩
        intro j hj
        cases j with
        | zero => omega
        | succ j => rw [List.drop_succ_cons]; exact hafter j (by omega)
    · rintro ⟨i, hi, hafter⟩
      rcases hm : matchLast ps cs with _ | k0
      · cases i with
        | zero =>
          simp only [matchLast, hm]
          simpa using hi
        | succ i1 =>
          exfalso
          have h1 := (matchLast_none_iff ps cs).mp hm i1
          rw [List.drop_succ_cons] at hi
          rw [h1] at hi
          simp at hi
      · obtain ⟨i0, hi0, hafter0⟩ := (ih k0).mp hm
        cases i with
        | zero =>
          exfalso
          have h1 := hafter (i0 + 1) (by omega)
          rw [List.drop_succ_cons] at h1
          rw [h1] at hi0
          simp at hi0
        | succ i1 =>
          rw [List.drop_succ_cons] at hi
          rcases lt_trichotomy i1 i0 with hlt | heq | hgt
          · exfalso
            have h1 := hafter (i0 + 1) (by omega)
            rw [List.drop_succ_cons] at h1
            rw [h1] at hi0
            simp at hi0
          · subst heq
            rw [hi] at hi0
            simp only [matchLast, hm]
            simpa using hi0.symm
          · exfalso
            have h1 := hafter0 i1 hgt
            rw [h1] at hi
            simp at hi

theorem mem_insertIssue (s : List String) (a k : String) :
    a ∈ insertIssue s k ↔ a ∈ s ∨ a = k := by
  unfold insertIssue
  by_cases h : k ∈ s
  · simp only [if_pos h]
    constructor
    · exact fun ha => Or.inl ha
    · rintro (ha | rfl)
      · exact ha
      · exact h
  · simp [h]

theorem nodup_insertIssue (s : List String) (k : String) (h : s.Nodup) :
    (insertIssue s k).Nodup := by
  unfold insertIssue
  by_cases hk : k ∈ s
  · simpa [hk]
  · simp [hk, List.nodup_append, h]

theorem mem_foldl_extractStep (projects : List String) (commits : List Commit)
    (init : List String) (a : String) :
    a ∈ commits.foldl (extractStep projects) init ↔
      a ∈ init ∨ ∃ c ∈ commits, matchLast projects c.comment.data = some a.data := by
  induction commits generalizing init with
  | nil => simp
  | cons c cs ih =>
    rw [List.foldl_cons, ih]
    have hstep : a ∈ extractStep projects init c ↔
        a ∈ init ∨ matchLast projects c.comment.data = some a.data := by
      unfold extractStep
      rcases hm : matchLast projects c.comment.data with _ | km
      · simp
      · rw [mem_insertIssue]
        have hk : a = String.mk km ↔ some km = some a.data := by
          rw [String.ext_iff]
          constructor
          · intro h; rw [h]
          · intro h; injection h with h; rw [h]
        simp [hk]
    rw [hstep]
    simp only [List.mem_cons]
    constructor
    · rintro ((ha | hc) | ⟨c', hc', hm'⟩)
      · exact Or.inl ha
      · exact Or.inr ⟨c, Or.inl rfl, hc⟩
      · exact Or.inr ⟨c', Or.inr hc', hm'⟩
    · rintro (ha | ⟨c', (rfl | hc'), hm'⟩)
      · exact Or.inl (Or.inl ha)
      · exact Or.inl (Or.inr hm')
      · exact Or.inr ⟨c', hc', hm'⟩

theorem nodup_foldl_extractStep (projects : List String) (commits : List Commit)
    (init : List String) (h : init.Nodup) :
    (commits.foldl (extractStep projects) init).Nodup := by
  induction commits generalizing init with
  | nil => simpa
  | cons c cs ih =>
    rw [List.foldl_cons]
    apply ih
    unfold extractStep
    rcases matchLast projects c.comment.data with _ | km
    · exact h
    · exact nodup_insertIssue _ _ h

theorem exceptBind_ok {ε α β : Type} (a : α) (f : α → Except ε β) :
    (Except.ok a : Except ε α) >>= f = f a := rfl

theorem exceptBind_error {ε α β : Type} (e : ε) (f : α → Except ε β) :
    (Except.error e : Except ε α) >>= f = .error e := rfl

/-- When this key's request outcome does not raise, `__get_issue_data`
returns a result dict; its `key` entry is the requested key, provided a
200 body echoes it (non-200 results carry the requested key by
construction). -/
theorem getIssueData_ok_key (world : String → FetchOutcome) (k : String)
    (hok : outcomeRaises (world k) = false)
    (hecho : ∀ body, world k = .resp 200 (.ok body) → resultKey body = some k) :
    ∃ r, getIssueData world k = .ok r ∧ resultKey r = some k := by
  cases hw : world k with
  | exn m => rw [hw] at hok; simp [outcomeRaises] at hok
  | resp status body =>
    cases body with
    | error m =>
      rw [hw] at hok
      simp [outcomeRaises] at hok
      exact ⟨errIssue k, by simp [getIssueData, hw, hok], rfl⟩
    | ok b =>
      by_cases hs : status = 200
      · subst hs
        exact ⟨b, by simp [getIssueData, hw], hecho b hw⟩
      · exact ⟨errIssue k, by simp [getIssueData, hw, hs], rfl⟩

/-- When this key's request outcome raises, `__get_issue_data` raises. -/
theorem getIssueData_error_of_raises (world : String → FetchOutcome) (k : String)
    (h : outcomeRaises (world k) = true) :
    ∃ e, getIssueData world k = .error e := by
  cases hw : world k with
  | exn m => exact ⟨m, by simp [getIssueData, hw]⟩
  | resp status body =>
    cases body with
    | error m =>
      rw [hw] at h
      simp [outcomeRaises] at h
      exact ⟨m, by simp [getIssueData, hw, h]⟩
    | ok b => rw [hw] at h; simp [outcomeRaises] at h

/-!  ## Claim C5 -/

/-- C5 counterexample: `sanitize(None)` is `None`, not the empty string —
the source propagates the null (`if text is None: return None`). -/
theorem sanitize_none_counterexample :
    sanitize none = none ∧ sanitize none ≠ some "" :=
  ⟨rfl, by decide⟩

/-- C5 (amended): `sanitize` applied to the null value returns the null
unchanged (`sanitize(None) == None`); when such a value is interpolated into
a report row it therefore formats as the string `None`, not as empty. -/
theorem sanitize_none_propagates :
    sanitize none = none ∧ fmtField (sanitize none) = "None" :=
  ⟨rfl, rfl⟩

/-!  ## Claim C6 -/

/-- C6: for every input string, `sanitize` rewrites each character
independently (`expandQuote`), doubling each literal double-quote — the
output holds twice as many double-quotes and the same number of every other
character — and the output has no lone double-quote (`quotesPaired`); in
particular the summary `He said "hi"` sanitizes to `He said ""hi""` and is
rendered as the CSV field `"He said ""hi"""`. -/
theorem sanitize_doubles_quotes :
    (∀ s : String, ∃ t : String, sanitize (some s) = some t ∧
        t.data = s.data.flatMap expandQuote ∧
        t.data.count dq = 2 * s.data.count dq ∧
        (∀ c : Char, c ≠ dq → t.data.count c = s.data.count c) ∧
        quotesPaired t.data = true) ∧
    sanitize (some "He said \"hi\"") = some "He said \"\"hi\"\"" ∧
    q ++ fmtField (sanitize (some "He said \"hi\"")) ++ q = "\"He said \"\"hi\"\"\"" := by
  refine ⟨fun s => ⟨String.mk (s.data.flatMap expandQuote), ?_, rfl,
      count_flatMap_dq s.data, fun c hc => count_flatMap_ne c hc s.data,
      quotesPaired_flatMap s.data⟩, by decide, by decide⟩
  simp [sanitize, pyReplaceChar_dq]

/-- Witness for `sanitize_doubles_quotes` at the concrete summary
`He said "hi"`. -/
theorem sanitize_doubles_quotes_witness :
    ∃ t : String, sanitize (some "He said \"hi\"") = some t ∧
      t.data = "He said \"hi\"".data.flatMap expandQuote ∧
      t.data.count dq = 2 * "He said \"hi\"".data.count dq ∧
      (∀ c : Char, c ≠ dq → t.data.count c = "He said \"hi\"".data.count c) ∧
      quotesPaired t.data = true :=
  sanitize_doubles_quotes.1 "He said \"hi\""

/-!  ## Claim C3 -/

/-- C3 counterexample: a 200 response whose body carries `errorMessages`
(tracker-level soft error) is NOT classified as a Failure: `__get_issue_data`
returns the parsed body unchanged; it has no `error_message` entry (so no
stripped first element of `errorMessages` anywhere), and the renderer then
takes the success branch and raises `KeyError` instead of producing an
error row. -/
theorem soft_error_counterexample :
    getIssueData c3World "ABC-1" = .ok c3Body ∧
    c3Body.get "error_message" = none ∧
    renderIssueRow "http://jira" c3Body = .error "KeyError: key" :=
  ⟨rfl, rfl, rfl⟩

/-- C3 (amended): on HTTP 200 the parsed JSON body is returned unchanged,
whether or not it contains an `errorMessages` field — the source performs no
soft-error classification and no trailing-period stripping. -/
theorem status200_body_passthrough (world : String → FetchOutcome)
    (key : String) (body : JValue)
    (h : world key = .resp 200 (.ok body)) :
    getIssueData world key = .ok body := by
  simp [getIssueData, h]

/-- Witness for `status200_body_passthrough` at a concrete world: the
soft-error body of `c3World` flows through untouched. -/
theorem status200_body_passthrough_witness :
    getIssueData c3World "ABC-7" = .ok c3Body :=
  status200_body_passthrough c3World "ABC-7" c3Body rfl

/-!  ## Claim C7 -/

/-- C7: any non-200 HTTP status yields the Failure dict with the generic
message `Errors getting issue data`, and that dict renders as the row
`"<key>","Error","Errors getting issue data"` (with the key sanitized). -/
theorem non200_error_row (world : String → FetchOutcome)
    (server key : String) (status : Nat) (body : Except String JValue)
    (hw : world key = .resp status body) (hs : status ≠ 200) :
    getIssueData world key = .ok (errIssue key) ∧
    renderIssueRow server (errIssue key) =
      .ok (q ++ fmtField (sanitize (some key)) ++ q ++ "," ++ q ++ "Error" ++ q ++
           "," ++ q ++ errorsGettingMsg ++ q) := by
  constructor
  · simp [getIssueData, hw, hs]
  · rfl

/-- Witness for `non200_error_row`: a 404 on `ABC-1` produces the Failure
dict, whose rendered row is literally
`"ABC-1","Error","Errors getting issue data"`. -/
theorem non200_error_row_witness :
    (getIssueData (fun _ => .resp 404 (.error "Not Found")) "ABC-1" =
        .ok (errIssue "ABC-1") ∧
      renderIssueRow "http://jira" (errIssue "ABC-1") =
        .ok (q ++ fmtField (sanitize (some "ABC-1")) ++ q ++ "," ++ q ++ "Error" ++ q ++
             "," ++ q ++ errorsGettingMsg ++ q)) ∧
    renderIssueRow "http://jira" (errIssue "ABC-1") =
      .ok "\"ABC-1\",\"Error\",\"Errors getting issue data\"" :=
  ⟨non200_error_row (fun _ => .resp 404 (.error "Not Found")) "http://jira" "ABC-1"
      404 (.error "Not Found") rfl (by decide), rfl⟩

/-!  ## Claim C4 -/

/-- C4 counterexample: a successfully fetched issue whose `resolution` is
JSON `null` renders with `"None"` — not the empty field `""` — in the
resolution column (`sanitize` propagates `None`, which `str.format` prints
as `None`).  The same happens to the null-safe `resolutiondate` column. -/
theorem resolution_null_counterexample :
    renderIssueRow "http://jira" c4Issue =
      .ok "\"ABC-1\",\"Bug\",\"Fix it\",\"Done\",\"None\",\"2020-01-01\",\"http://jira/browse/ABC-1\"" ∧
    renderIssueRow "http://jira" c4Issue ≠
      .ok "\"ABC-1\",\"Bug\",\"Fix it\",\"Done\",\"\",\"2020-01-01\",\"http://jira/browse/ABC-1\"" :=
  ⟨rfl, fun h => absurd (Except.ok.inj h) (by decide)⟩

/-- C4 (amended): for every success body with `resolution: null`, the
rendered report row carries the four-character string `None` in the
resolution column (a null value does not sanitize to the empty string). -/
theorem resolution_null_renders_none (server key issueType summary status
    resolutionDate : String) :
    renderIssueRow server (successIssue key issueType summary status .null resolutionDate) =
      .ok (q ++ fmtField (sanitize (some key)) ++ q ++ "," ++
           q ++ fmtField (sanitize (some issueType)) ++ q ++ "," ++
           q ++ fmtField (sanitize (some summary)) ++ q ++ "," ++
           q ++ fmtField (sanitize (some status)) ++ q ++ "," ++
           q ++ "None" ++ q ++ "," ++
           q ++ fmtField (sanitize (some resolutionDate)) ++ q ++ "," ++
           q ++ getIssueUrl server key ++ q) :=
  rfl

/-- Witness for `resolution_null_renders_none` at the concrete issue
`c4Issue`. -/
theorem resolution_null_renders_none_witness :
    renderIssueRow "http://jira" (successIssue "ABC-1" "Bug" "Fix it" "Done" .null "2020-01-01") =
      .ok (q ++ fmtField (sanitize (some "ABC-1")) ++ q ++ "," ++
           q ++ fmtField (sanitize (some "Bug")) ++ q ++ "," ++
           q ++ fmtField (sanitize (some "Fix it")) ++ q ++ "," ++
           q ++ fmtField (sanitize (some "Done")) ++ q ++ "," ++
           q ++ "None" ++ q ++ "," ++
           q ++ fmtField (sanitize (some "2020-01-01")) ++ q ++ "," ++
           q ++ getIssueUrl "http://jira" "ABC-1" ++ q) :=
  resolution_null_renders_none "http://jira" "ABC-1" "Bug" "Fix it" "Done" "2020-01-01"

/-!  ## Claim C1 -/

/-- C1 counterexample: for the key set `{ABC-1, ABC-2}` where only `ABC-1`'s
request raises a connection error, the batch returns no result list at all —
`asyncio.gather` propagates the exception — so the returned sequence does
not have one result per requested key. -/
theorem batch_fetch_counterexample :
    getIssuesData c1World ["ABC-1", "ABC-2"] = .error "Connection timeout" :=
  rfl

/-- C1 (amended): for every non-empty key set in which no individual request
raises (no connection error/timeout and no malformed 200 body — non-200
statuses are fine), and whose 200 bodies echo the requested key, the batch
returns exactly one result per requested key, in order: the lengths agree
and the result keys are exactly the requested keys. -/
theorem batch_complete_without_raises (world : String → FetchOutcome)
    (keys : List String) (_hne : keys ≠ [])
    (hok : ∀ k ∈ keys, outcomeRaises (world k) = false)
    (hecho : ∀ k ∈ keys, ∀ body, world k = .resp 200 (.ok body) →
      resultKey body = some k) :
    ∃ rs, getIssuesData world keys = .ok rs ∧ rs.length = keys.length ∧
      rs.map resultKey = keys.map some := by
  clear _hne
  induction keys with
  | nil => exact ⟨[], rfl, rfl, rfl⟩
  | cons k ks ih =>
    obtain ⟨r, hr, hkey⟩ := getIssueData_ok_key world k
      (hok k (by simp)) (hecho k (by simp))
    obtain ⟨rs, hrs, hlen, hmap⟩ :=
      ih (fun k' hk' => hok k' (by simp [hk']))
         (fun k' hk' => hecho k' (by simp [hk']))
    have hrs2 : List.mapM (getIssueData world) ks = .ok rs := hrs
    refine ⟨r :: rs, ?_, by simp [hlen], by simp [hmap, hkey]⟩
    show List.mapM (getIssueData world) (k :: ks) = .ok (r :: rs)
    rw [List.mapM_cons, hr, hrs2, exceptBind_ok, exceptBind_ok]
    rfl

/-- Witness for `batch_complete_without_raises`: a concrete two-key batch
with one 404 Failure and one echoing 200 Success. -/
theorem batch_complete_without_raises_witness :
    ∃ rs, getIssuesData c1WitWorld ["ABC-1", "ABC-2"] = .ok rs ∧
      rs.length = (["ABC-1", "ABC-2"] : List String).length ∧
      rs.map resultKey = (["ABC-1", "ABC-2"] : List String).map some :=
  batch_complete_without_raises c1WitWorld ["ABC-1", "ABC-2"] (by decide)
    (by decide)
    (by
      intro k hk body hb
      simp only [List.mem_cons, List.not_mem_nil, or_false] at hk
      rcases hk with rfl | rfl
      · simp [c1WitWorld] at hb
      · simp [c1WitWorld] at hb
        rw [← hb]
        rfl)

/-!  ## Claim C2 -/

/-- C2 counterexample: a connection error on `ABC-1` makes
`__get_issue_data` raise rather than produce a Failure result, and the raise
aborts the whole batch, losing the healthy sibling `ABC-3`'s result; a
malformed 200 body (`ABC-2`) behaves the same way. -/
theorem per_issue_exception_counterexample :
    getIssueData c2World "ABC-1" = .error "ConnectionError" ∧
    getIssueData c2World "ABC-2" = .error "JSONDecodeError" ∧
    getIssuesData c2World ["ABC-1", "ABC-3"] = .error "ConnectionError" ∧
    getIssuesData c2World ["ABC-3", "ABC-2"] = .error "JSONDecodeError" :=
  ⟨rfl, rfl, rfl, rfl⟩

/-- C2 (amended): a connection error, timeout, or malformed JSON body on a
single key's request raises an exception that propagates out of the batch,
aborting it (no result list is produced for any key); only a non-200 HTTP
status is contained as data, resolving that key to the Failure dict. -/
theorem per_issue_exception_aborts_batch :
    (∀ (world : String → FetchOutcome) (keys : List String) (k : String),
        k ∈ keys → outcomeRaises (world k) = true →
        ∃ e, getIssuesData world keys = .error e) ∧
    (∀ (world : String → FetchOutcome) (k : String) (status : Nat)
        (body : Except String JValue),
        world k = .resp status body → status ≠ 200 →
        getIssueData world k = .ok (errIssue k)) := by
  constructor
  · intro world keys k hk hraise
    induction keys with
    | nil => simp at hk
    | cons k' ks ih =>
      rcases List.mem_cons.mp hk with rfl | hk'
      · obtain ⟨e, he⟩ := getIssueData_error_of_raises world k hraise
        refine ⟨e, ?_⟩
        show List.mapM (getIssueData world) (k :: ks) = .error e
        rw [List.mapM_cons, he, exceptBind_error]
      · cases hd : getIssueData world k' with
        | error e =>
          refine ⟨e, ?_⟩
          show List.mapM (getIssueData world) (k' :: ks) = .error e
          rw [List.mapM_cons, hd, exceptBind_error]
        | ok r =>
          obtain ⟨e, he⟩ := ih hk'
          have he2 : List.mapM (getIssueData world) ks = .error e := he
          refine ⟨e, ?_⟩
          show List.mapM (getIssueData world) (k' :: ks) = .error e
          rw [List.mapM_cons, hd, exceptBind_ok, he2, exceptBind_error]
  · intro world k status body hw hs
    simp [getIssueData, hw, hs]

/-- Witness for `per_issue_exception_aborts_batch`: the concrete batch
`{ABC-1, ABC-3}` over `c2World` aborts, and a concrete 404 resolves to the
Failure dict. -/
theorem per_issue_exception_aborts_batch_witness :
    (∃ e, getIssuesData c2World ["ABC-1", "ABC-3"] = .error e) ∧
    getIssueData c1WitWorld "ABC-1" = .ok (errIssue "ABC-1") :=
  ⟨per_issue_exception_aborts_batch.1 c2World ["ABC-1", "ABC-3"] "ABC-1"
      (by decide) (by decide),
   per_issue_exception_aborts_batch.2 c1WitWorld "ABC-1" 404 (.error "Not Found")
      rfl (by decide)⟩

/-!  ## Claim C8 -/

/-- C8 counterexample: the commit message `ABC-1 ABC-2` contains the
substring `ABC-1`, which matches `ABC-<digits>`, yet the extracted key set
is exactly `{ABC-2}` — the anchored greedy regex keeps only the last match
of each message, so `ABC-1` is dropped. -/
theorem extractor_drops_key_counterexample :
    isInfixChars "ABC-1".data c8Commit.comment.data = true ∧
    getCommitsIssues ["ABC"] [c8Commit] = ["ABC-2"] ∧
    "ABC-1" ∉ getCommitsIssues ["ABC"] [c8Commit] :=
  ⟨by decide, by decide, by decide⟩

/-- C8 (amended): the extracted list is duplicate-free (set semantics, one
occurrence per key no matter how many commits matched it), a key is in it
exactly when some commit's message yields it as the key captured by the
anchored whole-line regex (the match at the last matching position — not
every matching substring of the message), and messages with no match
contribute nothing. -/
theorem extractor_last_match_set (projects : List String) (commits : List Commit) :
    (getCommitsIssues projects commits).Nodup ∧
    ∀ k : String, k ∈ getCommitsIssues projects commits ↔
      ∃ c ∈ commits, matchLast projects c.comment.data = some k.data := by
  constructor
  · exact nodup_foldl_extractStep projects commits [] (by simp)
  · intro k
    rw [getCommitsIssues, mem_foldl_extractStep]
    simp

/-- Witness for `extractor_last_match_set` at one concrete commit list. -/
theorem extractor_last_match_set_witness :
    (getCommitsIssues ["ABC"] [⟨"c1", "fix ABC-3"⟩]).Nodup ∧
    ("ABC-3" ∈ getCommitsIssues ["ABC"] [⟨"c1", "fix ABC-3"⟩] ↔
      ∃ c ∈ [(⟨"c1", "fix ABC-3"⟩ : Commit)],
        matchLast ["ABC"] c.comment.data = some "ABC-3".data) :=
  ⟨(extractor_last_match_set ["ABC"] [⟨"c1", "fix ABC-3"⟩]).1,
   (extractor_last_match_set ["ABC"] [⟨"c1", "fix ABC-3"⟩]).2 "ABC-3"⟩

/-!  ## Claim C10 -/

/-- C10: a single commit message contributes at most one key: the output of
extraction on that one commit has length at most 1, and a key is extracted
from the message exactly when the alternation matches at some position `i`
of the message and at no later position — i.e. it is the single key captured
at the last matching position; all other matching keys in that message are
dropped. -/
theorem per_message_single_key (projects : List String) (c : Commit) :
    (getCommitsIssues projects [c]).length ≤ 1 ∧
    ∀ k : String, k ∈ getCommitsIssues projects [c] ↔
      ∃ i, altMatchAt projects (c.comment.data.drop i) = some k.data ∧
        ∀ j, i < j → altMatchAt projects (c.comment.data.drop j) = none := by
  have hsingle : getCommitsIssues projects [c] =
      match matchLast projects c.comment.data with
      | some km => [String.mk km]
      | none => [] := by
    unfold getCommitsIssues extractStep
    cases hm : matchLast projects c.comment.data <;> simp [hm, insertIssue]
  constructor
  · rw [hsingle]
    cases matchLast projects c.comment.data <;> simp
  · intro k
    rw [hsingle, ← matchLast_some_iff]
    cases hm : matchLast projects c.comment.data with
    | none => simp [hm]
    | some km =>
      simp only [hm, List.mem_singleton]
      rw [String.ext_iff]
      constructor
      · intro h
        rw [h]
      · intro h
        injection h with h
        rw [h]

/-- Witness for `per_message_single_key` at the concrete two-key commit. -/
theorem per_message_single_key_witness :
    (getCommitsIssues ["ABC"] [c8Commit]).length ≤ 1 ∧
    ("ABC-2" ∈ getCommitsIssues ["ABC"] [c8Commit] ↔
      ∃ i, altMatchAt ["ABC"] (c8Commit.comment.data.drop i) = some "ABC-2".data ∧
        ∀ j, i < j → altMatchAt ["ABC"] (c8Commit.comment.data.drop j) = none) :=
  ⟨(per_message_single_key ["ABC"] c8Commit).1,
   (per_message_single_key ["ABC"] c8Commit).2 "ABC-2"⟩

/-!  ## Claim C9 -/

theorem getCommitsLoop_error (exec : List String → String → ProcResult)
    (args : List String) (pre : List String) (badRepo : String)
    (rest : List String)
    (hpre : ∀ rp ∈ pre, ∃ cs, callGitLog exec args rp = .ok cs)
    (hbad : (exec (gitCmdArgs args) badRepo).returncode ≠ 0) :
    getCommitsLoop exec args (pre ++ badRepo :: rest) =
      .error (gitFailMsg (exec (gitCmdArgs args) badRepo) (gitCmdArgs args)) := by
  induction pre with
  | nil =>
    simp only [List.nil_append, getCommitsLoop]
    have hcall : callGitLog exec args badRepo =
        .error (gitFailMsg (exec (gitCmdArgs args) badRepo) (gitCmdArgs args)) := by
      unfold callGitLog
      simp [hbad]
    rw [hcall, exceptBind_error]
  | cons rp pre ih =>
    obtain ⟨cs, hcs⟩ := hpre rp (by simp)
    have ih2 := ih (fun rp' h' => hpre rp' (by simp [h']))
    simp only [List.cons_append, getCommitsLoop, List.append_eq]
    rw [hcs, exceptBind_ok, ih2, exceptBind_error]

/-- C9: whenever the `git log` invocation for some repo path exits with a
non-zero status (all earlier repo paths having succeeded), the whole run
aborts with process exit code 1, the `RuntimeError` message carrying the
command's diagnostic output is printed to the error stream, and no report
line — not even the header row — is emitted. -/
theorem git_log_failure_aborts (exec : List String → String → ProcResult)
    (args : List String) (pre : List String) (badRepo : String)
    (rest : List String) (world : String → FetchOutcome)
    (projects : List String) (server : String)
    (hpre : ∀ rp ∈ pre, ∃ cs, callGitLog exec args rp = .ok cs)
    (hbad : (exec (gitCmdArgs args) badRepo).returncode ≠ 0) :
    runReport exec args (pre ++ badRepo :: rest) world projects server =
      ⟨1, [], [gitFailMsg (exec (gitCmdArgs args) badRepo) (gitCmdArgs args)]⟩ := by
  unfold runReport
  rw [getCommitsLoop_error exec args pre badRepo rest hpre hbad]

/-- Witness for `git_log_failure_aborts`: a concrete world whose `git log`
exits 128 — the run exits 1, prints the failure message, writes nothing. -/
theorem git_log_failure_aborts_witness :
    runReport c9Exec ["HEAD"] ["repo"] (fun _ => .exn "unused") ["ABC"] "http://jira" =
      ⟨1, [], [gitFailMsg (c9Exec (gitCmdArgs ["HEAD"]) "repo") (gitCmdArgs ["HEAD"])]⟩ :=
  git_log_failure_aborts c9Exec ["HEAD"] [] "repo" [] (fun _ => .exn "unused")
    ["ABC"] "http://jira" (by simp) (by decide)

end JiraReport
